import Mathlib

/-!
Shallow embedding of the NSDP TLV discovery engine (`nsdp_discovery.go`).

Modelling conventions:
* Go `uint16` values are `Nat` with explicit `% 65536` at every operation
  where the source can overflow; `byte` values are `Nat` (the transaction
  oracle is assumed to deliver bytes, i.e. values `< 256`, as the Go type
  system guarantees).
* The transaction primitive `queryTLV` (an external network exchange) is
  abstracted as an oracle `Nat → Option (List Nat)`: `none` is any error
  outcome (timeout, transport error, TLV missing from the response) and
  `some data` is a successful exchange returning `data`.
* Loops are fuel-indexed: `none` means the loop did not leave within the
  given number of iterations, so "the loop terminates" is "`some` for a
  sufficiently large fuel" and "the loop never terminates" is "`none` for
  every fuel".
* Console printing and sleeping are side effects without influence on the
  computed data; they are dropped.  The `verbose` flag, which in the source
  only gates printing, is kept as an (unused) argument of `scanBatch`.
-/

namespace NSDP

/-- Mirror of the Go struct `TLVResponse` (`nsdp_discovery.go:18-23`). -/
structure TLVResponse where
  TLV : Nat
  HexValue : String
  RawData : List Nat
  Length : Nat
deriving DecidableEq, Repr

/-- Mirror of the Go struct `DiscoveryResults` (`nsdp_discovery.go:25-33`);
the `ScanDuration` field (wall-clock time) is not modelled. -/
structure DiscoveryResults where
  DeviceMAC : String
  DeviceName : String
  DeviceModel : String
  ValidTLVs : List TLVResponse
  TotalTested : Nat
  TotalValid : Nat
deriving DecidableEq, Repr

/-- Lowercase hexadecimal digit, as used by Go `encoding/hex`. -/
def hexDigitChar (n : Nat) : Char :=
  if n < 10 then Char.ofNat (48 + n) else Char.ofNat (87 + n)

/-- Two lowercase hex digits of one byte (`hex.EncodeToString` per byte). -/
def hexByteChars (b : Nat) : List Char :=
  [hexDigitChar (b / 16 % 16), hexDigitChar (b % 16)]

/-- Go `hex.EncodeToString`: lowercase hex, two characters per byte. -/
def hexEncodeToString (data : List Nat) : String :=
  String.mk ((data.map hexByteChars).flatten)

/-- Go `fmt.Sprintf "%02x"` of one byte (`interpretTLVData`'s MAC case). -/
def hex2 (b : Nat) : String :=
  String.mk (hexByteChars b)

/-- Go `string(data)` for a byte slice of printable ASCII bytes. -/
def stringOfBytes (data : List Nat) : String :=
  String.mk (data.map Char.ofNat)

/-- Mirror of `isPrintableASCII` (`nsdp_discovery.go:311-318`): every byte in
`[32,126]` and the slice non-empty. -/
def isPrintableASCII (data : List Nat) : Bool :=
  (data.all fun b => decide (32 ≤ b ∧ b ≤ 126)) && decide (0 < data.length)

/-- The `String:` candidate of `interpretTLVData` (`nsdp_discovery.go:279-281`). -/
def stringInterp (data : List Nat) : List String :=
  if isPrintableASCII data then ["String: \"" ++ stringOfBytes data ++ "\""] else []

/-- The length-switched numeric candidates of `interpretTLVData`
(`nsdp_discovery.go:284-302`): Uint8 / Uint16 / Uint32 and IP / MAC. -/
def numericInterps (data : List Nat) : List String :=
  match data.length with
  | 1 => ["Uint8: " ++ toString (data.getD 0 0)]
  | 2 => ["Uint16: " ++ toString (((data.getD 0 0) <<< 8) ||| data.getD 1 0)]
  | 4 => ["Uint32: " ++
            toString ((((data.getD 0 0) <<< 24) ||| ((data.getD 1 0) <<< 16)) |||
              (((data.getD 2 0) <<< 8) ||| data.getD 3 0)),
          "IP: " ++ toString (data.getD 0 0) ++ "." ++ toString (data.getD 1 0) ++
            "." ++ toString (data.getD 2 0) ++ "." ++ toString (data.getD 3 0)]
  | 6 => ["MAC: " ++ hex2 (data.getD 0 0) ++ ":" ++ hex2 (data.getD 1 0) ++ ":" ++
            hex2 (data.getD 2 0) ++ ":" ++ hex2 (data.getD 3 0) ++ ":" ++
            hex2 (data.getD 4 0) ++ ":" ++ hex2 (data.getD 5 0)]
  | _ => []

/-- The `interpretations` list built by `interpretTLVData`: the `String:`
candidate (if printable) followed by the length-dependent candidates. -/
def interpretations (data : List Nat) : List String :=
  stringInterp data ++ numericInterps data

/-- Mirror of `interpretTLVData` (`nsdp_discovery.go:270-309`): empty input
gives `""`; otherwise the collected candidates joined by `" | "`, or `""`
when there is no candidate. -/
def interpretTLVData (tlv : TLVResponse) : String :=
  let data := tlv.RawData
  if data.length = 0 then ""
  else
    let interps := interpretations data
    if 0 < interps.length then String.intercalate " | " interps else ""

/-- Outcome of one `queryTLV` exchange (`nsdp_discovery.go:223-240`),
abstracted as an oracle: `none` for any error (timeout, transport failure,
TLV absent from the response), `some data` for a successful exchange. -/
def Oracle : Type := Nat → Option (List Nat)

/-- Go int → uint16 conversion (`uint16(batchSize)`): the low 16 bits. -/
def ub16 (b : Int) : Nat :=
  (b % 65536).toNat

/-- Finding constructed by `scanBatch` on a non-empty response
(`nsdp_discovery.go:206-211`). -/
def mkTLVResponse (tlv : Nat) (response : List Nat) : TLVResponse :=
  { TLV := tlv, HexValue := hexEncodeToString response,
    RawData := response, Length := response.length }

/-- Body of the `scanBatch` loop for one identifier
(`nsdp_discovery.go:191-218`): on an error, no finding; on a response,
a finding exactly when the response is non-empty. -/
def probeTLV (q : Oracle) (tlv : Nat) : Option TLVResponse :=
  (q tlv).bind fun response =>
    if 0 < response.length then some (mkTLVResponse tlv response) else none

/-- Identifiers visited by the `scanBatch` loop
`for tlv := start; tlv <= end; tlv++` over `uint16`: for `e < 0xFFFF` these
are `s, s+1, …, e` (none when `s > e`); for `e = 0xFFFF` the increment wraps
`0xFFFF → 0` while `tlv <= e` stays true, so the loop never leaves (`none`). -/
def scanBatchIds (s e : Nat) : Option (List Nat) :=
  if e = 65535 then none else some (List.range' s (e + 1 - s))

/-- Mirror of `scanBatch` (`nsdp_discovery.go:188-221`).  The `verbose` flag
only gates printing in the source and is unused here.  `none` means the
batch loop never returns. -/
def scanBatch (q : Oracle) (_verbose : Bool) (s e : Nat) : Option (List TLVResponse) :=
  (scanBatchIds s e).map fun ids => ids.filterMap (probeTLV q)

/-- The `batchEnd` computation of `scanDevice` (`nsdp_discovery.go:155-158`):
`batchEnd := current + uint16(batchSize) - 1` over `uint16` (both the
addition and the subtraction wrap), then clipped to `end` when larger. -/
def batchEndOf (ub current endV : Nat) : Nat :=
  let raw := (current + ub + 65535) % 65536
  if raw > endV then endV else raw

/-- The batch-scheduling loop of `scanDevice` (`nsdp_discovery.go:154-180`),
fuel-indexed: runs while `current <= end`, appends each batch's findings,
and advances `current = batchEnd + 1` over `uint16`.  The `bind` propagates
non-termination of a batch's inner loop (`none`) to the whole scan. -/
def scanLoop (q : Oracle) (verbose : Bool) (ub endV : Nat) :
    Nat → Nat → List TLVResponse → Option (List TLVResponse)
  | 0, _, _ => none
  | fuel + 1, current, acc =>
      if current ≤ endV then
        (scanBatch q verbose current (batchEndOf ub current endV)).bind
          fun batchResults =>
            scanLoop q verbose ub endV fuel
              ((batchEndOf ub current endV + 1) % 65536) (acc ++ batchResults)
      else some acc

/-- Go `int(end - start + 1)` over `uint16` operands
(`nsdp_discovery.go:128`): subtraction and increment wrap at `2^16`. -/
def totalTestedOf (start endV : Nat) : Nat :=
  ((endV + 65536 - start) % 65536 + 1) % 65536

/-- Mirror of `scanDevice` (`nsdp_discovery.go:124-186`) restricted to its
computed data: `TotalTested` is set up front from the `uint16` expression,
the loop accumulates `ValidTLVs`, and `TotalValid` is its final length.
Device identity fields are the best-effort lookup results, passed in. -/
def scanDevice (q : Oracle) (verbose : Bool) (start endV : Nat) (batchSize : Int)
    (fuel : Nat) (mac name model : String) : Option DiscoveryResults :=
  (scanLoop q verbose (ub16 batchSize) endV fuel start []).map fun tlvs =>
    { DeviceMAC := mac, DeviceName := name, DeviceModel := model,
      ValidTLVs := tlvs, TotalTested := totalTestedOf start endV,
      TotalValid := tlvs.length }

/-- The pre-scan configuration checks of `main` (`nsdp_discovery.go:48-67`)
on already-parsed values: a non-empty interface name and `start ≤ end`.
Hex parsing of the bounds is abstracted by taking the parsed 16-bit values;
`batchSize` is taken unexamined, exactly as in the source, where no check
mentions it. -/
def configAccepted (interfaceName : String) (startVal endVal : Nat)
    (_batchSize : Int) : Bool :=
  (!(interfaceName == "")) && decide (startVal ≤ endVal)

/-- Batch bounds visited by the scheduling loop, fuel-indexed prefix:
the `(current, batchEnd)` pairs in visiting order. -/
def batchTrace (ub endV : Nat) : Nat → Nat → List (Nat × Nat)
  | 0, _ => []
  | fuel + 1, current =>
      if current ≤ endV then
        (current, batchEndOf ub current endV) ::
          batchTrace ub endV fuel ((batchEndOf ub current endV + 1) % 65536)
      else []

/-- Identifiers probed by the batches of `batchTrace`, in probing order
(batches whose inner loop never returns contribute their ids elsewhere and
are absent here; every batch used below has a returning inner loop). -/
def probedIds (ub endV fuel current : Nat) : List Nat :=
  ((batchTrace ub endV fuel current).map fun p => (scanBatchIds p.1 p.2).getD []).flatten

/-- Oracle that never answers: every exchange fails. -/
def noOracle : Oracle := fun _ => none

/-- Oracle returning the one-byte payload `[1]` for identifier 500 only. -/
def oracle500 : Oracle := fun t => if t = 500 then some [1] else none

/-- Oracle returning the one-byte payload `[8]` for identifier 2 only. -/
def oracleHit2 : Oracle := fun t => if t = 2 then some [8] else none

/-- Coherence invariant of a finding: `Length` is the byte count of
`RawData`, `HexValue` is its lowercase hex encoding, and the payload is
non-empty. -/
def coherentTLV (r : TLVResponse) : Prop :=
  r.Length = r.RawData.length ∧ r.HexValue = hexEncodeToString r.RawData ∧ 1 ≤ r.Length

/-- Success-rate expression of `displayResults` and `saveResults`
(`nsdp_discovery.go:246` and `:341`): `float64(valid)/float64(tested)*100`,
modelled exactly over `ℚ` (the float64 arithmetic is exact at the
magnitudes checked here). -/
def successRate (valid tested : Nat) : ℚ :=
  (valid : ℚ) / (tested : ℚ) * 100

/-- Two-decimal fixed-point rendering, modelling Go's `%.2f` verb on the
(here exactly representable) success-rate values. -/
def render2dec (x : ℚ) : String :=
  let c : Int := round (x * 100)
  toString (c / 100) ++ "." ++
    (if c % 100 < 10 then "0" ++ toString (c % 100) else toString (c % 100))

lemma scanLoop_step_some (q : Oracle) (v : Bool) (ub endV fuel current : Nat)
    (acc bs : List TLVResponse) (hc : current ≤ endV)
    (hbs : scanBatch q v current (batchEndOf ub current endV) = some bs) :
    scanLoop q v ub endV (fuel + 1) current acc =
      scanLoop q v ub endV fuel ((batchEndOf ub current endV + 1) % 65536) (acc ++ bs) := by
  simp only [scanLoop]
  rw [if_pos hc, hbs, Option.some_bind]

lemma scanLoop_step_none (q : Oracle) (v : Bool) (ub endV fuel current : Nat)
    (acc : List TLVResponse) (hc : current ≤ endV)
    (hbs : scanBatch q v current (batchEndOf ub current endV) = none) :
    scanLoop q v ub endV (fuel + 1) current acc = none := by
  simp only [scanLoop]
  rw [if_pos hc, hbs, Option.none_bind]

lemma scanLoop_done (q : Oracle) (v : Bool) (ub endV fuel current : Nat)
    (acc : List TLVResponse) (hc : ¬ current ≤ endV) :
    scanLoop q v ub endV (fuel + 1) current acc = some acc := by
  simp only [scanLoop]
  rw [if_neg hc]

lemma probeTLV_TLV_eq {q : Oracle} {t : Nat} {r : TLVResponse}
    (h : probeTLV q t = some r) : r.TLV = t := by
  unfold probeTLV at h
  cases hq : q t with
  | none => rw [hq, Option.none_bind] at h; exact absurd h (by simp)
  | some d =>
      rw [hq, Option.some_bind] at h
      by_cases hd : 0 < d.length
      · rw [if_pos hd] at h
        cases h; rfl
      · rw [if_neg hd] at h; exact absurd h (by simp)

lemma coherent_of_probeTLV {q : Oracle} {t : Nat} {r : TLVResponse}
    (h : probeTLV q t = some r) : coherentTLV r := by
  unfold probeTLV at h
  cases hq : q t with
  | none => rw [hq, Option.none_bind] at h; exact absurd h (by simp)
  | some d =>
      rw [hq, Option.some_bind] at h
      by_cases hd : 0 < d.length
      · rw [if_pos hd] at h
        cases h
        exact ⟨rfl, rfl, hd⟩
      · rw [if_neg hd] at h; exact absurd h (by simp)

lemma scanLoop_full_range (q : Oracle) (v : Bool) (ub : Nat) :
    ∀ (fuel current : Nat) (acc : List TLVResponse), current < 65536 →
      scanLoop q v ub 65535 fuel current acc = none := by
  intro fuel
  induction fuel with
  | zero => intro current acc _; rfl
  | succ n ih =>
      intro current acc h
      have hc : current ≤ 65535 := by omega
      cases hbs : scanBatch q v current (batchEndOf ub current 65535) with
      | none => exact scanLoop_step_none q v ub 65535 n current acc hc hbs
      | some bs =>
          rw [scanLoop_step_some q v ub 65535 n current acc bs hc hbs]
          exact ih _ _ (Nat.mod_lt _ (by norm_num))

lemma numericInterps_eq_nil {data : List Nat}
    (h1 : data.length ≠ 1) (h2 : data.length ≠ 2)
    (h4 : data.length ≠ 4) (h6 : data.length ≠ 6) :
    numericInterps data = [] := by
  unfold numericInterps
  split
  all_goals simp_all

lemma scanLoop_ub_zero (q : Oracle) (v : Bool) (endV : Nat) :
    ∀ (fuel current : Nat) (acc : List TLVResponse),
      1 ≤ current → current ≤ endV → endV ≤ 65535 →
      scanLoop q v 0 endV fuel current acc = none := by
  intro fuel
  induction fuel with
  | zero => intro current acc _ _ _; rfl
  | succ n ih =>
      intro current acc h1 h2 h3
      have hbe : batchEndOf 0 current endV = current - 1 := by
        simp only [batchEndOf]
        have hraw : (current + 0 + 65535) % 65536 = current - 1 := by omega
        rw [hraw, if_neg (by omega)]
      have hbatch : scanBatch q v current (batchEndOf 0 current endV) = some [] := by
        rw [hbe]
        unfold scanBatch scanBatchIds
        rw [if_neg (by omega : ¬ current - 1 = 65535)]
        have hz : current - 1 + 1 - current = 0 := by omega
        rw [hz]
        simp
      rw [scanLoop_step_some q v 0 endV n current acc [] h2 hbatch]
      have hnext : (batchEndOf 0 current endV + 1) % 65536 = current := by
        rw [hbe]; omega
      rw [hnext, List.append_nil]
      exact ih current acc h1 h2 h3

/-- C1: the batch-scheduling loop of `scanDevice` does NOT terminate on a
scan whose `end` is `0xFFFF`: the `uint16` guard `current <= end` is then
always true, so no amount of fuel makes the loop leave — for every fuel the
loop is still running.  This refutes the claimed termination of the full
range `[0x0000, 0xFFFF]` (the tool's default configuration). -/
theorem scanLoop_never_ends_on_full_range (q : Oracle) (v : Bool)
    (ub fuel current : Nat) (acc : List TLVResponse) (h : current < 65536) :
    scanLoop q v ub 65535 fuel current acc = none :=
  scanLoop_full_range q v ub fuel current acc h

/-- Witness for C1 at the default configuration `start = 0, end = 0xFFFF,
batchSize = 100`. -/
theorem scanLoop_never_ends_on_full_range_witness :
    scanLoop noOracle false 100 65535 5 0 [] = none :=
  scanLoop_never_ends_on_full_range noOracle false 100 5 0 [] (by decide)

/-- C3 counterexample: a configuration with `batchSize = 0` passes every
pre-scan check of `main` — non-positive batch sizes are not rejected. -/
theorem batchSize_zero_is_accepted : configAccepted "eth0" 0 100 0 = true := by
  decide

/-- C3 amended: the pre-scan validation is independent of `batchSize` (no
check examines it), so a non-positive batch size reaches the scheduler; a
batch size of 0 there makes the cursor never advance, and the loop never
terminates. -/
theorem batchSize_validation_absent (iface : String) (s e : Nat) (b : Int)
    (_hb : b ≤ 0) (q : Oracle) (v : Bool) (endV fuel current : Nat)
    (acc : List TLVResponse) (h1 : 1 ≤ current) (h2 : current ≤ endV)
    (h3 : endV ≤ 65535) :
    configAccepted iface s e b = configAccepted iface s e 100 ∧
    scanLoop q v (ub16 0) endV fuel current acc = none := by
  refine ⟨rfl, ?_⟩
  have hu : ub16 0 = 0 := by decide
  rw [hu]
  exact scanLoop_ub_zero q v endV fuel current acc h1 h2 h3

/-- Witness for C3's amended statement at `batchSize = 0`. -/
theorem batchSize_validation_absent_witness :
    configAccepted "eth0" 0 100 0 = configAccepted "eth0" 0 100 100 ∧
    scanLoop noOracle false (ub16 0) 100 7 1 [] = none :=
  batchSize_validation_absent "eth0" 0 100 0 (by decide) noOracle false 100 7 1 []
    (by decide) (by decide) (by decide)

/-- C6: `interpretTLVData` is a pure function of the raw bytes — equal
`RawData` gives equal output — and on the spec's examples: `[0x01]` includes
`"Uint8: 1"`; `[0xC0,0xA8,0x01,0x64]` includes `"Uint32: 3232235876"` and
`"IP: 192.168.1.100"`; `[0x00,0x11,0x22,0x33,0x44,0x55]` yields exactly
`"MAC: 00:11:22:33:44:55"`; `[0x68,0x69]` includes `"String: \"hi\""` and
`"Uint16: 26729"`. -/
theorem interpret_pure_and_examples (t1 t2 : TLVResponse)
    (h : t1.RawData = t2.RawData) :
    interpretTLVData t1 = interpretTLVData t2 ∧
    "Uint8: 1" ∈ interpretations [1] ∧
    "Uint32: 3232235876" ∈ interpretations [192, 168, 1, 100] ∧
    "IP: 192.168.1.100" ∈ interpretations [192, 168, 1, 100] ∧
    interpretTLVData (mkTLVResponse 0 [0, 17, 34, 51, 68, 85]) =
      "MAC: 00:11:22:33:44:55" ∧
    "String: \"hi\"" ∈ interpretations [104, 105] ∧
    "Uint16: 26729" ∈ interpretations [104, 105] := by
  refine ⟨?_, by decide, by decide, by decide, by decide, by decide, by decide⟩
  simp only [interpretTLVData, h]

/-- Witness for C6's determinism hypothesis at two findings with equal
bytes. -/
theorem interpret_pure_and_examples_witness :
    interpretTLVData (mkTLVResponse 3 [104, 105]) =
      interpretTLVData (mkTLVResponse 9 [104, 105]) :=
  (interpret_pure_and_examples (mkTLVResponse 3 [104, 105])
    (mkTLVResponse 9 [104, 105]) rfl).1

/-- C7 counterexample: the 3-byte printable payload `"hii"` is interpreted
as a String candidate, so `interpretTLVData` is NOT the empty string on
every input whose length is outside {1, 2, 4, 6}. -/
theorem interpret_other_length_not_empty :
    interpretTLVData (mkTLVResponse 0 [104, 105, 105]) = "String: \"hii\"" ∧
    interpretTLVData (mkTLVResponse 0 [104, 105, 105]) ≠ "" := by
  constructor <;> decide

/-- C7 amended: for payloads whose length is not 1, 2, 4 or 6 and which are
not entirely printable ASCII, `interpretTLVData` proposes no candidate and
returns the empty string (the payload is reported as raw hex only); an
all-printable payload of such a length still gets the String candidate. -/
theorem interpret_empty_unless_printable (r : TLVResponse)
    (h1 : r.RawData.length ≠ 1) (h2 : r.RawData.length ≠ 2)
    (h4 : r.RawData.length ≠ 4) (h6 : r.RawData.length ≠ 6)
    (hp : isPrintableASCII r.RawData = false) :
    interpretTLVData r = "" := by
  have hnum := numericInterps_eq_nil h1 h2 h4 h6
  by_cases h0 : r.RawData.length = 0
  · simp [interpretTLVData, h0]
  · simp [interpretTLVData, h0, interpretations, stringInterp, hp, hnum]

/-- Witness for C7's amended statement at a 3-byte non-printable payload. -/
theorem interpret_empty_unless_printable_witness :
    interpretTLVData (mkTLVResponse 0 [0, 1, 2]) = "" :=
  interpret_empty_unless_printable (mkTLVResponse 0 [0, 1, 2]) (by decide)
    (by decide) (by decide) (by decide) (by decide)

/-- C10: every non-empty payload whose bytes all lie in `[32, 126]` gets a
String candidate from the interpreter, whatever its length. -/
theorem printable_gives_string_candidate (data : List Nat) (hne : data ≠ [])
    (hb : ∀ b ∈ data, 32 ≤ b ∧ b ≤ 126) :
    ("String: \"" ++ stringOfBytes data ++ "\"") ∈ interpretations data := by
  have hp : isPrintableASCII data = true := by
    unfold isPrintableASCII
    simp only [Bool.and_eq_true, List.all_eq_true, decide_eq_true_eq]
    exact ⟨fun b hbmem => hb b hbmem, List.length_pos.mpr hne⟩
  simp [interpretations, stringInterp, hp]

/-- Witness for C10 at the 3-byte printable payload `"hii"`. -/
theorem printable_gives_string_candidate_witness :
    ("String: \"" ++ stringOfBytes [104, 105, 105] ++ "\"") ∈
      interpretations [104, 105, 105] :=
  printable_gives_string_candidate [104, 105, 105] (by decide) (by decide)

/-- C5: within a returning batch, an identifier `t` of the batch's range has
a finding in the output exactly when the transaction succeeded with a
non-empty value; errors and zero-length values produce no finding; and the
output does not depend on the `verbose` flag. -/
theorem finding_iff_nonempty_success (q : Oracle) (v v' : Bool) (s e t : Nat)
    (out : List TLVResponse) (hout : scanBatch q v s e = some out)
    (hst : s ≤ t) (hte : t ≤ e) :
    ((∃ r ∈ out, r.TLV = t) ↔ ∃ d, q t = some d ∧ 0 < d.length) ∧
    scanBatch q v' s e = scanBatch q v s e := by
  refine ⟨?_, rfl⟩
  unfold scanBatch scanBatchIds at hout
  by_cases h65 : e = 65535
  · rw [if_pos h65] at hout; exact absurd hout (by simp)
  · rw [if_neg h65] at hout
    have hout' : (List.range' s (e + 1 - s)).filterMap (probeTLV q) = out := by
      simpa using hout
    constructor
    · rintro ⟨r, hr, hrt⟩
      rw [← hout'] at hr
      rcases List.mem_filterMap.mp hr with ⟨a, _, hpa⟩
      have hra : r.TLV = a := probeTLV_TLV_eq hpa
      have hat : a = t := by rw [← hrt, hra]
      subst hat
      unfold probeTLV at hpa
      cases hq : q a with
      | none => rw [hq, Option.none_bind] at hpa; exact absurd hpa (by simp)
      | some d =>
          rw [hq, Option.some_bind] at hpa
          by_cases hd : 0 < d.length
          · exact ⟨d, rfl, hd⟩
          · rw [if_neg hd] at hpa; exact absurd hpa (by simp)
    · rintro ⟨d, hd, hdl⟩
      refine ⟨mkTLVResponse t d, ?_, rfl⟩
      rw [← hout']
      apply List.mem_filterMap.mpr
      refine ⟨t, List.mem_range'_1.mpr ⟨hst, by omega⟩, ?_⟩
      unfold probeTLV
      rw [hd, Option.some_bind, if_pos hdl]

/-- Witness for C5: identifier 500 of the batch `[499, 501]` yields a
finding under the oracle answering `[1]` at 500, independently of
verbosity. -/
theorem finding_iff_nonempty_success_witness :
    ((∃ r ∈ [mkTLVResponse 500 [1]], r.TLV = 500) ↔
      ∃ d, oracle500 500 = some d ∧ 0 < d.length) ∧
    scanBatch oracle500 true 499 501 = scanBatch oracle500 false 499 501 :=
  finding_iff_nonempty_success oracle500 false true 499 501 500
    [mkTLVResponse 500 [1]] (by decide) (by decide) (by decide)

lemma scanBatch_coherent {q : Oracle} {v : Bool} {s e : Nat}
    {bs : List TLVResponse} (hbs : scanBatch q v s e = some bs) :
    ∀ x ∈ bs, coherentTLV x := by
  unfold scanBatch scanBatchIds at hbs
  by_cases h65 : e = 65535
  · rw [if_pos h65] at hbs; exact absurd hbs (by simp)
  · rw [if_neg h65] at hbs
    have h' : (List.range' s (e + 1 - s)).filterMap (probeTLV q) = bs := by
      simpa using hbs
    intro x hx
    rw [← h'] at hx
    rcases List.mem_filterMap.mp hx with ⟨a, _, hpa⟩
    exact coherent_of_probeTLV hpa

lemma scanLoop_coherent (q : Oracle) (v : Bool) (ub endV : Nat) :
    ∀ (fuel current : Nat) (acc out : List TLVResponse),
      scanLoop q v ub endV fuel current acc = some out →
      (∀ x ∈ acc, coherentTLV x) → ∀ x ∈ out, coherentTLV x := by
  intro fuel
  induction fuel with
  | zero =>
      intro current acc out h _
      rw [show scanLoop q v ub endV 0 current acc = none from rfl] at h
      cases h
  | succ n ih =>
      intro current acc out h hacc
      by_cases hc : current ≤ endV
      · cases hbs : scanBatch q v current (batchEndOf ub current endV) with
        | none => rw [scanLoop_step_none q v ub endV n current acc hc hbs] at h; cases h
        | some bs =>
            rw [scanLoop_step_some q v ub endV n current acc bs hc hbs] at h
            refine ih _ _ _ h ?_
            intro x hx
            rcases List.mem_append.mp hx with hxa | hxb
            · exact hacc x hxa
            · exact scanBatch_coherent hbs x hxb
      · rw [scanLoop_done q v ub endV n current acc hc] at h
        cases h
        exact hacc

/-- C9: every finding of a completed scan (starting from a coherent
accumulator) satisfies the coherence invariant — `Length` is the byte count
of `RawData`, `HexValue` is its lowercase hex encoding, and the payload is
non-empty — and the invariant survives any permutation of the findings
(such as the reporter's sort). -/
theorem findings_coherent (q : Oracle) (v : Bool) (ub endV fuel current : Nat)
    (acc out l : List TLVResponse) (r : TLVResponse)
    (hrun : scanLoop q v ub endV fuel current acc = some out)
    (hacc : ∀ x ∈ acc, coherentTLV x)
    (hl : l.Perm out) (hr : r ∈ l) : coherentTLV r :=
  scanLoop_coherent q v ub endV fuel current acc out hrun hacc r (hl.mem_iff.mp hr)

/-- Witness for C9 at a small completed scan with one finding. -/
theorem findings_coherent_witness : coherentTLV (mkTLVResponse 2 [8]) :=
  findings_coherent oracleHit2 false 2 5 4 0 [] [mkTLVResponse 2 [8]]
    [mkTLVResponse 2 [8]] (mkTLVResponse 2 [8]) (by decide) (by simp)
    (List.Perm.refl _) (by decide)

lemma batchEndOf_no_wrap (ub current endV : Nat) (hub : 1 ≤ ub)
    (hw : endV + ub ≤ 65535) (hc : current ≤ endV) :
    batchEndOf ub current endV = min (current + ub - 1) endV := by
  simp only [batchEndOf]
  have hraw : (current + ub + 65535) % 65536 = current + ub - 1 := by omega
  rw [hraw]
  split <;> omega

lemma scanBatch_no_wrap (q : Oracle) (v : Bool) (s e : Nat) (he : e ≤ 65534) :
    scanBatch q v s e =
      some ((List.range' s (e + 1 - s)).filterMap (probeTLV q)) := by
  unfold scanBatch scanBatchIds
  rw [if_neg (by omega)]
  rfl

lemma scanLoop_no_wrap (q : Oracle) (v : Bool) (ub endV : Nat)
    (hub : 1 ≤ ub) (hw : endV + ub ≤ 65535) :
    ∀ (fuel current : Nat) (acc : List TLVResponse),
      current ≤ endV + 1 → endV + 2 ≤ current + fuel →
      scanLoop q v ub endV fuel current acc =
        some (acc ++ (List.range' current (endV + 1 - current)).filterMap (probeTLV q)) := by
  intro fuel
  induction fuel with
  | zero => intro current acc h1 h2; exact absurd h2 (by omega)
  | succ n ih =>
      intro current acc h1 h2
      by_cases hc : current ≤ endV
      · have hbe : batchEndOf ub current endV = min (current + ub - 1) endV :=
          batchEndOf_no_wrap ub current endV hub hw hc
        have hble : batchEndOf ub current endV ≤ 65534 := by omega
        have hbatch := scanBatch_no_wrap q v current (batchEndOf ub current endV) hble
        rw [scanLoop_step_some q v ub endV n current acc _ hc hbatch]
        have hnext : (batchEndOf ub current endV + 1) % 65536 =
            batchEndOf ub current endV + 1 := by omega
        rw [hnext]
        have h1' : batchEndOf ub current endV + 1 ≤ endV + 1 := by omega
        have h2' : endV + 2 ≤ (batchEndOf ub current endV + 1) + n := by omega
        rw [ih (batchEndOf ub current endV + 1) _ h1' h2']
        have happ := List.range'_append current
          (batchEndOf ub current endV + 1 - current)
          (endV + 1 - (batchEndOf ub current endV + 1)) 1
        rw [one_mul] at happ
        have hstep : current + (batchEndOf ub current endV + 1 - current) =
            batchEndOf ub current endV + 1 := by omega
        rw [hstep] at happ
        have hcount : (endV + 1 - (batchEndOf ub current endV + 1)) +
            (batchEndOf ub current endV + 1 - current) = endV + 1 - current := by omega
        rw [hcount] at happ
        rw [List.append_assoc, ← List.filterMap_append, happ]
      · rw [scanLoop_done q v ub endV n current acc hc]
        have hce : current = endV + 1 := by omega
        rw [hce]
        simp

lemma batchTrace_step_pos (ub endV fuel current : Nat) (hc : current ≤ endV) :
    batchTrace ub endV (fuel + 1) current =
      (current, batchEndOf ub current endV) ::
        batchTrace ub endV fuel ((batchEndOf ub current endV + 1) % 65536) := by
  simp only [batchTrace]
  rw [if_pos hc]

lemma batchTrace_step_neg (ub endV fuel current : Nat) (hc : ¬ current ≤ endV) :
    batchTrace ub endV (fuel + 1) current = [] := by
  simp only [batchTrace]
  rw [if_neg hc]

lemma probedIds_step_pos (ub endV fuel current : Nat) (hc : current ≤ endV) :
    probedIds ub endV (fuel + 1) current =
      ((scanBatchIds current (batchEndOf ub current endV)).getD []) ++
        probedIds ub endV fuel ((batchEndOf ub current endV + 1) % 65536) := by
  unfold probedIds
  rw [batchTrace_step_pos ub endV fuel current hc, List.map_cons, List.flatten_cons]

lemma probedIds_no_wrap (ub endV : Nat) (hub : 1 ≤ ub) (hw : endV + ub ≤ 65535) :
    ∀ (fuel current : Nat), current ≤ endV + 1 → endV + 2 ≤ current + fuel →
      probedIds ub endV fuel current = List.range' current (endV + 1 - current) := by
  intro fuel
  induction fuel with
  | zero => intro current h1 h2; exact absurd h2 (by omega)
  | succ n ih =>
      intro current h1 h2
      by_cases hc : current ≤ endV
      · have hbe : batchEndOf ub current endV = min (current + ub - 1) endV :=
          batchEndOf_no_wrap ub current endV hub hw hc
        have hble : batchEndOf ub current endV ≤ 65534 := by omega
        rw [probedIds_step_pos ub endV n current hc]
        have hids : scanBatchIds current (batchEndOf ub current endV) =
            some (List.range' current (batchEndOf ub current endV + 1 - current)) := by
          unfold scanBatchIds
          rw [if_neg (by omega)]
        rw [hids]
        have hnext : (batchEndOf ub current endV + 1) % 65536 =
            batchEndOf ub current endV + 1 := by omega
        rw [hnext]
        have h1' : batchEndOf ub current endV + 1 ≤ endV + 1 := by omega
        have h2' : endV + 2 ≤ (batchEndOf ub current endV + 1) + n := by omega
        rw [ih (batchEndOf ub current endV + 1) h1' h2']
        have happ := List.range'_append current
          (batchEndOf ub current endV + 1 - current)
          (endV + 1 - (batchEndOf ub current endV + 1)) 1
        rw [one_mul] at happ
        have hstep : current + (batchEndOf ub current endV + 1 - current) =
            batchEndOf ub current endV + 1 := by omega
        rw [hstep] at happ
        have hcount : (endV + 1 - (batchEndOf ub current endV + 1)) +
            (batchEndOf ub current endV + 1 - current) = endV + 1 - current := by omega
        rw [hcount] at happ
        rw [Option.getD_some, happ]
      · unfold probedIds
        rw [batchTrace_step_neg ub endV n current hc]
        have hce : current = endV + 1 := by omega
        rw [hce]
        simp

/-- C2 counterexample: scanning `[0xFFFA, 0xFFFE]` (start 65530 ≤ end 65534)
with `batchSize = 10` probes identifier 4, which lies outside the range:
the `uint16` batch-end computation wraps, the cursor jumps to 4, and the
next batch covers `[4, 13]`. -/
theorem wrap_probes_outside_range :
    4 ∈ probedIds (ub16 10) 65534 2 65530 ∧ 4 < 65530 := by decide

/-- C2 amended: when the `uint16` batch arithmetic cannot wrap
(`end + batchSize ≤ 0xFFFF`), the batches partition `[start, end]` exactly:
every identifier inside the range is probed exactly once, none outside is
probed, and the probing order is strictly ascending. -/
theorem batches_partition_exactly (ub endV start fuel id : Nat)
    (hub : 1 ≤ ub) (hw : endV + ub ≤ 65535) (hse : start ≤ endV)
    (hfuel : endV + 2 ≤ start + fuel) :
    List.count id (probedIds ub endV fuel start) =
      (if start ≤ id ∧ id ≤ endV then 1 else 0) ∧
    (probedIds ub endV fuel start).Pairwise (· < ·) := by
  have hp : probedIds ub endV fuel start = List.range' start (endV + 1 - start) :=
    probedIds_no_wrap ub endV hub hw fuel start (by omega) hfuel
  rw [hp]
  refine ⟨?_, List.pairwise_lt_range' _ _⟩
  by_cases hid : start ≤ id ∧ id ≤ endV
  · rw [if_pos hid]
    exact List.count_eq_one_of_mem (List.nodup_range' _ _)
      (List.mem_range'_1.mpr ⟨hid.1, by omega⟩)
  · rw [if_neg hid]
    refine List.count_eq_zero.mpr fun hmem => ?_
    have := List.mem_range'_1.mp hmem
    exact hid ⟨this.1, by omega⟩

/-- Witness for C2's amended statement: identifier 3 of `[0, 5]` with
`batchSize = 2` is probed exactly once and probing is ascending. -/
theorem batches_partition_exactly_witness :
    List.count 3 (probedIds 2 5 7 0) = (if 0 ≤ 3 ∧ 3 ≤ 5 then 1 else 0) ∧
    (probedIds 2 5 7 0).Pairwise (· < ·) :=
  batches_partition_exactly 2 5 0 7 3 (by decide) (by decide) (by decide) (by decide)

lemma map_TLV_filterMap_sublist (q : Oracle) :
    ∀ ids : List Nat,
      (((ids.filterMap (probeTLV q)).map TLVResponse.TLV)).Sublist ids := by
  intro ids
  induction ids with
  | nil => simp
  | cons t ts ih =>
      cases hq : probeTLV q t with
      | none =>
          rw [List.filterMap_cons, hq]
          exact ih.cons t
      | some r =>
          rw [List.filterMap_cons, hq, List.map_cons, probeTLV_TLV_eq hq]
          exact ih.cons₂ t

/-- C8 amended: when the `uint16` batch arithmetic cannot wrap
(`end + batchSize ≤ 0xFFFF`), the findings of a completed scan are strictly
ascending by identifier, and any reordering of them that is sorted by the
reporter's comparison (`TLV ≤`) — the postcondition of `sort.Slice` with
less-function `TLV <` — is strictly ascending as well. -/
theorem findings_strictly_ascending (q : Oracle) (v : Bool)
    (ub endV start fuel : Nat) (out l : List TLVResponse)
    (hub : 1 ≤ ub) (hw : endV + ub ≤ 65535) (hstart : start ≤ endV + 1)
    (hfuel : endV + 2 ≤ start + fuel)
    (hrun : scanLoop q v ub endV fuel start [] = some out)
    (hperm : l.Perm out) (hle : l.Pairwise (fun a b => a.TLV ≤ b.TLV)) :
    out.Pairwise (fun a b => a.TLV < b.TLV) ∧
    l.Pairwise (fun a b => a.TLV < b.TLV) := by
  have hnw := scanLoop_no_wrap q v ub endV hub hw fuel start [] hstart hfuel
  rw [hrun] at hnw
  have hout : out =
      [] ++ (List.range' start (endV + 1 - start)).filterMap (probeTLV q) :=
    Option.some.inj hnw
  rw [List.nil_append] at hout
  have hmap : (out.map TLVResponse.TLV).Pairwise (· < ·) := by
    rw [hout]
    exact List.Pairwise.sublist (map_TLV_filterMap_sublist q _)
      (List.pairwise_lt_range' _ _)
  have hstrict : out.Pairwise (fun a b => a.TLV < b.TLV) := List.pairwise_map.mp hmap
  refine ⟨hstrict, ?_⟩
  have hnd_out : (out.map TLVResponse.TLV).Nodup := hmap.imp Nat.ne_of_lt
  have hnd_l : (l.map TLVResponse.TLV).Nodup :=
    (hperm.map TLVResponse.TLV).nodup_iff.mpr hnd_out
  have hne : l.Pairwise (fun a b => a.TLV ≠ b.TLV) := List.pairwise_map.mp hnd_l
  exact (hle.and hne).imp fun hab => lt_of_le_of_ne hab.1 hab.2

/-- Witness for C8's amended statement at a small completed scan. -/
theorem findings_strictly_ascending_witness :
    [mkTLVResponse 2 [8]].Pairwise (fun a b => a.TLV < b.TLV) ∧
    [mkTLVResponse 2 [8]].Pairwise (fun a b => a.TLV < b.TLV) :=
  findings_strictly_ascending oracleHit2 false 2 5 0 7
    [mkTLVResponse 2 [8]] [mkTLVResponse 2 [8]] (by decide) (by decide)
    (by decide) (by decide) (by decide) (List.Perm.refl _) (by simp)

lemma filterMap_probeTLV_nil (q : Oracle) (a n : Nat)
    (h : ∀ t, a ≤ t → t < a + n → q t = none) :
    (List.range' a n).filterMap (probeTLV q) = [] := by
  apply List.filterMap_eq_nil_iff.mpr
  intro t ht
  have hb := List.mem_range'_1.mp ht
  unfold probeTLV
  rw [h t hb.1 hb.2, Option.none_bind]

lemma filterMap_probeTLV_single (q : Oracle) (a n k : Nat) (d : List Nat)
    (hk : q k = some d) (hd : 0 < d.length)
    (hother : ∀ t, t ≠ k → q t = none)
    (h1 : a ≤ k) (h2 : k < a + n) :
    (List.range' a n).filterMap (probeTLV q) = [mkTLVResponse k d] := by
  have happ := List.range'_append a (k - a) (n - (k - a)) 1
  rw [one_mul] at happ
  have hak : a + (k - a) = k := by omega
  rw [hak] at happ
  have hn : (n - (k - a)) + (k - a) = n := by omega
  rw [hn] at happ
  rw [← happ, List.filterMap_append]
  have hleft : (List.range' a (k - a)).filterMap (probeTLV q) = [] :=
    filterMap_probeTLV_nil q a (k - a) (fun t _ ht2 => hother t (by omega))
  rw [hleft, List.nil_append]
  have hpos : n - (k - a) = (n - (k - a) - 1) + 1 := by omega
  rw [hpos, List.range'_succ, List.filterMap_cons]
  have hpk : probeTLV q k = some (mkTLVResponse k d) := by
    unfold probeTLV
    rw [hk, Option.some_bind, if_pos hd]
  rw [hpk]
  have hright : (List.range' (k + 1) (n - (k - a) - 1)).filterMap (probeTLV q) = [] :=
    filterMap_probeTLV_nil q (k + 1) _ (fun t ht1 _ => hother t (by omega))
  rw [hright]

/-- C8 counterexample: scanning `[0, 33000]` with `batchSize = 33000`
completes, but the `uint16` wraparound makes the second climb re-probe
identifiers 464–33000, so identifier 500 is found twice — the final
findings `[500, 500]` (the only sorted arrangement of themselves) are NOT
strictly ascending. -/
theorem wraparound_duplicate_findings :
    scanLoop oracle500 false (ub16 33000) 33000 4 0 [] =
      some [mkTLVResponse 500 [1], mkTLVResponse 500 [1]] ∧
    ¬ ([mkTLVResponse 500 [1], mkTLVResponse 500 [1]].Pairwise
        (fun a b => a.TLV < b.TLV)) := by
  constructor
  · have hub : ub16 33000 = 33000 := by decide
    rw [hub]
    have hother : ∀ t, t ≠ 500 → oracle500 t = none := by
      intro t ht
      simp [oracle500, ht]
    have h500 : oracle500 500 = some [1] := rfl
    have hbe1 : batchEndOf 33000 0 33000 = 32999 := by decide
    have hb1 : scanBatch oracle500 false 0 (batchEndOf 33000 0 33000) =
        some [mkTLVResponse 500 [1]] := by
      rw [hbe1, scanBatch_no_wrap oracle500 false 0 32999 (by omega)]
      rw [show (32999 + 1 - 0 : Nat) = 33000 from rfl]
      rw [filterMap_probeTLV_single oracle500 0 33000 500 [1] h500 (by decide)
        hother (by omega) (by omega)]
    rw [show (4 : Nat) = 3 + 1 from rfl,
      scanLoop_step_some oracle500 false 33000 33000 3 0 [] _ (by omega) hb1]
    rw [hbe1, show (32999 + 1) % 65536 = 33000 from by decide, List.nil_append]
    have hbe2 : batchEndOf 33000 33000 33000 = 463 := by decide
    have hb2 : scanBatch oracle500 false 33000 (batchEndOf 33000 33000 33000) =
        some [] := by
      rw [hbe2, scanBatch_no_wrap oracle500 false 33000 463 (by omega)]
      rw [show (463 + 1 - 33000 : Nat) = 0 from by decide]
      rfl
    rw [show (3 : Nat) = 2 + 1 from rfl,
      scanLoop_step_some oracle500 false 33000 33000 2 33000 _ _ (by omega) hb2]
    rw [hbe2, show (463 + 1) % 65536 = 464 from by decide, List.append_nil]
    have hbe3 : batchEndOf 33000 464 33000 = 33000 := by decide
    have hb3 : scanBatch oracle500 false 464 (batchEndOf 33000 464 33000) =
        some [mkTLVResponse 500 [1]] := by
      rw [hbe3, scanBatch_no_wrap oracle500 false 464 33000 (by omega)]
      rw [show (33000 + 1 - 464 : Nat) = 32537 from by decide]
      rw [filterMap_probeTLV_single oracle500 464 32537 500 [1] h500 (by decide)
        hother (by omega) (by omega)]
    rw [show (2 : Nat) = 1 + 1 from rfl,
      scanLoop_step_some oracle500 false 33000 33000 1 464 _ _ (by omega) hb3]
    rw [hbe3, show (33000 + 1) % 65536 = 33001 from by decide]
    rw [show (1 : Nat) = 0 + 1 from rfl,
      scanLoop_done oracle500 false 33000 33000 0 33001 _ (by omega)]
    rfl
  · decide

/-- C4: for a completed scan the result records
`totalTested = end - start + 1` identifiers and `totalValid` equal to the
number of findings, and the displayed success rate of the spec's example
(3 valid of 100 tested) renders as `"3.00"`. -/
theorem totals_and_rate_of_completed_scan (q : Oracle) (v : Bool)
    (start endV : Nat) (batchSize : Int) (fuel : Nat) (mac name model : String)
    (res : DiscoveryResults)
    (hse : start ≤ endV) (hlt : endV < 65536)
    (hrun : scanDevice q v start endV batchSize fuel mac name model = some res) :
    res.TotalTested = endV - start + 1 ∧
    res.TotalValid = res.ValidTLVs.length ∧
    render2dec (successRate 3 100) = "3.00" := by
  unfold scanDevice at hrun
  cases hl : scanLoop q v (ub16 batchSize) endV fuel start [] with
  | none => rw [hl] at hrun; exact absurd hrun (by simp)
  | some tlvs =>
      rw [hl] at hrun
      simp only [Option.map_some'] at hrun
      have hres := Option.some.inj hrun
      subst hres
      have h65 : endV ≠ 65535 := by
        intro he
        subst he
        have hnone := scanLoop_full_range q v (ub16 batchSize) fuel start []
          (by omega)
        rw [hnone] at hl
        exact Option.noConfusion hl
      have htt : totalTestedOf start endV = endV - start + 1 := by
        unfold totalTestedOf
        omega
      refine ⟨htt, rfl, ?_⟩
      have h1 : successRate 3 100 = 3 := by
        norm_num [successRate]
      rw [h1]
      simp only [render2dec]
      have hr : round ((3 : ℚ) * 100) = 300 := by
        rw [show ((3 : ℚ) * 100) = ((300 : ℤ) : ℚ) by norm_num]
        exact round_intCast 300
      rw [hr]
      decide

/-- Witness for C4 at a small completed scan with no findings. -/
theorem totals_and_rate_of_completed_scan_witness :
    ({ DeviceMAC := "", DeviceName := "", DeviceModel := "", ValidTLVs := [],
       TotalTested := 6, TotalValid := 0 } : DiscoveryResults).TotalTested =
      5 - 0 + 1 ∧
    ({ DeviceMAC := "", DeviceName := "", DeviceModel := "", ValidTLVs := [],
       TotalTested := 6, TotalValid := 0 } : DiscoveryResults).TotalValid =
      ({ DeviceMAC := "", DeviceName := "", DeviceModel := "", ValidTLVs := [],
         TotalTested := 6, TotalValid := 0 } : DiscoveryResults).ValidTLVs.length ∧
    render2dec (successRate 3 100) = "3.00" :=
  totals_and_rate_of_completed_scan noOracle false 0 5 2 5 "" "" "" _
    (by decide) (by decide) (by decide)

end NSDP
